import Mathlib

/-!
Verification of the PX4 zero-order hover-thrust EKF
(`src/lib/hover_thrust_estimator/zero_order_hover_thrust_ekf.hpp`).

The repository contains only the class header: the constructor defaults,
the inline configuration setters, `resetAccelNoise` and the read accessor
are source code; the bodies of `predict`, `fuseAccZ` and the private
compute/update helpers are declared but not defined in the repository, so
those bodies are modelled from the specification (each such definition
carries a doc comment starting `Modelled from the spec:`).

Floats are embedded as rationals (ℚ): the estimator is a pure numeric
transform and every constant in the source is a decimal literal, exactly
representable in ℚ.
-/

namespace HoverThrustEkf

/-- Standard gravity used by the measurement model. The source pulls it
from `ecl/geo` (not in the repository); the spec fixes it at 9.80665. -/
def CONSTANTS_ONE_G : ℚ := 9.80665

/-- Noise-learning time constant, `noise_learning_time_constant = 0.5f`
from the header. -/
def noise_learning_time_constant : ℚ := 0.5

/-- Modelled from the spec: the spec requires `innov_var` to be
"clamped away from zero / treated as a fault if it underflows" and §7
mandates a "small positive floor"; no numeric value is given in the
repository, so the model fixes one small positive constant. -/
def innovVarFloor : ℚ := 1e-6

/-- The estimator state: the data members of class `ZeroOrderHoverThrustEkf`
with their in-class initializers (header lines 86–92). -/
structure ZeroOrderHoverThrustEkf where
  hover_thr : ℚ
  gate_size : ℚ
  P : ℚ
  Q : ℚ
  R : ℚ
  dt : ℚ
deriving Repr, DecidableEq

/-- The `status` struct returned by `fuseAccZ` (header lines 61–68). -/
structure Status where
  hover_thrust : ℚ
  hover_thrust_var : ℚ
  innov : ℚ
  innov_var : ℚ
  innov_test_ratio : ℚ
  accel_noise_var : ℚ
deriving Repr, DecidableEq

namespace ZeroOrderHoverThrustEkf

/-- Default construction: the in-class member initializers
`_hover_thr{0.5f}`, `_gate_size{3.f}`, `_P{0.01f}`, `_Q{0.25e-6f}`,
`_R{5.f}`, `_dt{0.02f}`. -/
def init : ZeroOrderHoverThrustEkf :=
  { hover_thr := 0.5, gate_size := 3, P := 0.01, Q := 0.25e-6, R := 5, dt := 0.02 }

/-- Source inline body, header line 73: `void resetAccelNoise() { _R = 5.f; }`. -/
def resetAccelNoise (e : ZeroOrderHoverThrustEkf) : ZeroOrderHoverThrustEkf :=
  { e with R := 5 }

/-- Source inline body, header line 78:
`setProcessNoiseStdDev(float x) { _Q = x * x; }`. -/
def setProcessNoiseStdDev (e : ZeroOrderHoverThrustEkf) (process_noise : ℚ) :
    ZeroOrderHoverThrustEkf :=
  { e with Q := process_noise * process_noise }

/-- Source inline body, header line 79:
`setMeasurementNoiseStdDev(float x) { _R = x * x; }`. -/
def setMeasurementNoiseStdDev (e : ZeroOrderHoverThrustEkf) (measurement_noise : ℚ) :
    ZeroOrderHoverThrustEkf :=
  { e with R := measurement_noise * measurement_noise }

/-- Source inline body, header line 80:
`setHoverThrustStdDev(float x) { _P = x * x; }`. -/
def setHoverThrustStdDev (e : ZeroOrderHoverThrustEkf) (hover_thrust_noise : ℚ) :
    ZeroOrderHoverThrustEkf :=
  { e with P := hover_thrust_noise * hover_thrust_noise }

/-- Source inline body, header line 81:
`setAccelInnovGate(float gate_size) { _gate_size = gate_size; }`. -/
def setAccelInnovGate (e : ZeroOrderHoverThrustEkf) (gate_size : ℚ) :
    ZeroOrderHoverThrustEkf :=
  { e with gate_size := gate_size }

/-- Source inline body, header line 83:
`getHoverThrustEstimate() const { return _hover_thr; }`. -/
def getHoverThrustEstimate (e : ZeroOrderHoverThrustEkf) : ℚ :=
  e.hover_thr

/-- Modelled from the spec: body of `predict(float dt)` is not in the
repository. §4.1: "Side effect only: P := P + Q · dt. No return value,
no failure mode"; the mean state is left unchanged (transition matrix 1). -/
def predict (e : ZeroOrderHoverThrustEkf) (dt : ℚ) : ZeroOrderHoverThrustEkf :=
  { e with P := e.P + e.Q * dt }

/-- Modelled from the spec: body of `computeH` is not in the repository.
Header doc and §4.1 step 1: `H = -g · T / Th²`. -/
def computeH (e : ZeroOrderHoverThrustEkf) (thrust : ℚ) : ℚ :=
  -CONSTANTS_ONE_G * thrust / (e.hover_thr * e.hover_thr)

/-- Modelled from the spec: body of `computePredictedAccZ` is not in the
repository. Header doc and §4.1 step 2: `ŷ = g · T / Th - g`. -/
def computePredictedAccZ (e : ZeroOrderHoverThrustEkf) (thrust : ℚ) : ℚ :=
  CONSTANTS_ONE_G * thrust / e.hover_thr - CONSTANTS_ONE_G

/-- Modelled from the spec: body of `computeInnov` is not in the
repository. §4.1 step 3: `innov = acc_z - ŷ`. -/
def computeInnov (e : ZeroOrderHoverThrustEkf) (acc_z thrust : ℚ) : ℚ :=
  acc_z - computePredictedAccZ e thrust

/-- Modelled from the spec: body of `computeInnovVar` is not in the
repository. §4.1 step 4: `innov_var = H² · P + R`, clamped away from zero
by a small positive floor since it is later used as a divisor. -/
def computeInnovVar (e : ZeroOrderHoverThrustEkf) (H : ℚ) : ℚ :=
  max (H * H * e.P + e.R) innovVarFloor

/-- Modelled from the spec: body of `computeKalmanGain` is not in the
repository. §4.1 step 7: `K = P · H / innov_var`. -/
def computeKalmanGain (e : ZeroOrderHoverThrustEkf) (H innov_var : ℚ) : ℚ :=
  e.P * H / innov_var

/-- Modelled from the spec: body of `computeInnovTestRatio` is not in the
repository. §4.1 step 5: `innov_test_ratio = innov² / (gate_size² · innov_var)`. -/
def computeInnovTestRatio (e : ZeroOrderHoverThrustEkf) (innov innov_var : ℚ) : ℚ :=
  innov * innov / (e.gate_size * e.gate_size * innov_var)

/-- Modelled from the spec: body of `isTestRatioPassing` is not in the
repository. §4.1 step 6: "the measurement is accepted for state fusion
only if innov_test_ratio ≤ 1", boundary inclusive (§8). -/
def isTestRatioPassing (_e : ZeroOrderHoverThrustEkf) (innov_test_ratio : ℚ) : Bool :=
  innov_test_ratio ≤ 1

/-- Modelled from the spec: body of `updateState` is not in the
repository. §4.1 step 8: `hover_thrust := hover_thrust + K · innov`. -/
def updateState (e : ZeroOrderHoverThrustEkf) (K innov : ℚ) : ZeroOrderHoverThrustEkf :=
  { e with hover_thr := e.hover_thr + K * innov }

/-- Modelled from the spec: body of `updateStateCovariance` is not in the
repository. §4.1 step 8: `P := (1 - K · H) · P`, "with P floored at zero
to guard against numerical underflow producing a negative variance". -/
def updateStateCovariance (e : ZeroOrderHoverThrustEkf) (K H : ℚ) : ZeroOrderHoverThrustEkf :=
  { e with P := max 0 ((1 - K * H) * e.P) }

/-- Modelled from the spec: body of `updateMeasurementNoise` is not in the
repository. §4.1 step 9 / §9: an exponential moving average of the squared
residual with forgetting factor derived from dt and the 0.5 s learning
time constant; §9 leaves the exact formula open, so the model uses the
simple EMA `R := R + α · (residual² - R)` with `α = dt / (τ + dt)`, and
§7's floor clamp keeping R nonnegative. The `H` argument is kept to match
the declared signature. -/
def updateMeasurementNoise (e : ZeroOrderHoverThrustEkf) (residual _H : ℚ) :
    ZeroOrderHoverThrustEkf :=
  let alpha := e.dt / (noise_learning_time_constant + e.dt)
  { e with R := max 0 (e.R + alpha * (residual * residual - e.R)) }

/-- Modelled from the spec: body of `packStatus` is not in the repository.
§4.1 step 10: "a status snapshot {hover_thrust, state_variance, innov,
innov_var, innov_test_ratio, the current measurement-noise variance}". -/
def packStatus (e : ZeroOrderHoverThrustEkf) (innov innov_var innov_test_ratio : ℚ) :
    Status :=
  { hover_thrust := e.hover_thr, hover_thrust_var := e.P, innov := innov,
    innov_var := innov_var, innov_test_ratio := innov_test_ratio,
    accel_noise_var := e.R }

/-- Modelled from the spec: body of `fuseAccZ(float acc_z, float thrust)`
is not in the repository. §4.1 steps 1–10: compute H, ŷ, innov, innov_var
and the test ratio; if the gate passes, apply the Kalman state and
covariance updates; in either case run the adaptive-noise update (with the
post-fit residual when accepted, the full ungated innovation when
rejected), and return the status snapshot. -/
def fuseAccZ (e : ZeroOrderHoverThrustEkf) (acc_z thrust : ℚ) :
    ZeroOrderHoverThrustEkf × Status :=
  let H := computeH e thrust
  let innov_var := computeInnovVar e H
  let innov := computeInnov e acc_z thrust
  let innov_test_ratio := computeInnovTestRatio e innov innov_var
  if isTestRatioPassing e innov_test_ratio then
    let K := computeKalmanGain e H innov_var
    let e1 := updateState e K innov
    let e2 := updateStateCovariance e1 K H
    let residual := computeInnov e2 acc_z thrust
    let e3 := updateMeasurementNoise e2 residual H
    (e3, packStatus e3 innov innov_var innov_test_ratio)
  else
    let e3 := updateMeasurementNoise e innov H
    (e3, packStatus e3 innov innov_var innov_test_ratio)

end ZeroOrderHoverThrustEkf

/-- One call of the per-cycle interface: either `predict(dt)` or
`fuseAccZ(acc_z, thrust)` (§6 call sequence). -/
inductive EkfCall where
  | predictCall (dt : ℚ)
  | fuseCall (acc_z thrust : ℚ)
deriving Repr, DecidableEq

/-- Run a sequence of `predict` / `fuseAccZ` calls from a starting state,
discarding the status snapshots (they have no further side effects). -/
def runCalls (e : ZeroOrderHoverThrustEkf) : List EkfCall → ZeroOrderHoverThrustEkf
  | [] => e
  | EkfCall.predictCall dt :: rest => runCalls (ZeroOrderHoverThrustEkf.predict e dt) rest
  | EkfCall.fuseCall acc_z thrust :: rest =>
      runCalls (ZeroOrderHoverThrustEkf.fuseAccZ e acc_z thrust).1 rest

/-- The side condition the claims place on a call sequence: every
`predict` step uses a strictly positive dt; `fuseAccZ` is unconstrained. -/
def EkfCall.valid : EkfCall → Prop
  | EkfCall.predictCall dt => 0 < dt
  | EkfCall.fuseCall _ _ => True

/-- Repeated `fuseAccZ` with the same inputs: `iterateFuse acc_z thrust n e`
is the estimator state after n fuse calls. -/
def iterateFuse (acc_z thrust : ℚ) : ℕ → ZeroOrderHoverThrustEkf → ZeroOrderHoverThrustEkf
  | 0, e => e
  | n + 1, e =>
      (ZeroOrderHoverThrustEkf.fuseAccZ (iterateFuse acc_z thrust n e) acc_z thrust).1

open ZeroOrderHoverThrustEkf

/-- Claim C8: a default-constructed estimator starts with hover_thrust 0.5,
state variance P = 0.01, process noise Q = 0.25e-6, measurement noise
R = 5.0 and innovation gate size 3.0. -/
theorem default_construction_values :
    init.hover_thr = 0.5 ∧ init.P = 0.01 ∧ init.Q = 0.25e-6 ∧
    init.R = 5.0 ∧ init.gate_size = 3.0 := by
  refine ⟨by norm_num [init], by norm_num [init], by norm_num [init],
    by norm_num [init], by norm_num [init]⟩

/-- Claim C9: each standard-deviation setter stores the square of its
argument (hence a nonnegative variance, also for negative arguments),
`setAccelInnovGate` stores its argument directly, and each setter changes
no other field of the estimator. -/
theorem setters_store_squares (e : ZeroOrderHoverThrustEkf) (x : ℚ) :
    (setProcessNoiseStdDev e x).Q = x * x ∧ 0 ≤ (setProcessNoiseStdDev e x).Q ∧
    (setProcessNoiseStdDev e x).hover_thr = e.hover_thr ∧
    (setProcessNoiseStdDev e x).gate_size = e.gate_size ∧
    (setProcessNoiseStdDev e x).P = e.P ∧
    (setProcessNoiseStdDev e x).R = e.R ∧
    (setProcessNoiseStdDev e x).dt = e.dt ∧
    (setMeasurementNoiseStdDev e x).R = x * x ∧ 0 ≤ (setMeasurementNoiseStdDev e x).R ∧
    (setMeasurementNoiseStdDev e x).hover_thr = e.hover_thr ∧
    (setMeasurementNoiseStdDev e x).gate_size = e.gate_size ∧
    (setMeasurementNoiseStdDev e x).P = e.P ∧
    (setMeasurementNoiseStdDev e x).Q = e.Q ∧
    (setMeasurementNoiseStdDev e x).dt = e.dt ∧
    (setHoverThrustStdDev e x).P = x * x ∧ 0 ≤ (setHoverThrustStdDev e x).P ∧
    (setHoverThrustStdDev e x).hover_thr = e.hover_thr ∧
    (setHoverThrustStdDev e x).gate_size = e.gate_size ∧
    (setHoverThrustStdDev e x).Q = e.Q ∧
    (setHoverThrustStdDev e x).R = e.R ∧
    (setHoverThrustStdDev e x).dt = e.dt ∧
    (setAccelInnovGate e x).gate_size = x ∧
    (setAccelInnovGate e x).hover_thr = e.hover_thr ∧
    (setAccelInnovGate e x).P = e.P ∧
    (setAccelInnovGate e x).Q = e.Q ∧
    (setAccelInnovGate e x).R = e.R ∧
    (setAccelInnovGate e x).dt = e.dt := by
  simp [setProcessNoiseStdDev, setMeasurementNoiseStdDev, setHoverThrustStdDev,
    setAccelInnovGate, mul_self_nonneg]

/-- Claim C10: `resetAccelNoise` sets R to exactly 5.0 and changes nothing
else, so a fuse call made immediately afterwards uses R = 5.0 in its
innovation-variance computation. -/
theorem resetAccelNoise_forces_R (e : ZeroOrderHoverThrustEkf) (thrust : ℚ) :
    (resetAccelNoise e).R = 5 ∧
    (resetAccelNoise e).hover_thr = e.hover_thr ∧
    (resetAccelNoise e).gate_size = e.gate_size ∧
    (resetAccelNoise e).P = e.P ∧
    (resetAccelNoise e).Q = e.Q ∧
    (resetAccelNoise e).dt = e.dt ∧
    computeInnovVar (resetAccelNoise e) ( computeH (resetAccelNoise e) thrust)
      = max ( computeH e thrust * computeH e thrust * e.P + 5) innovVarFloor := by
  simp [resetAccelNoise, computeInnovVar, computeH]

/-- Claim C1: for dt > 0 and Q ≥ 0, `predict` leaves hover_thrust
unchanged, increases the state variance by exactly Q·dt, and changes no
other field (and returns nothing: it is state-to-state). -/
theorem predict_only_grows_variance (e : ZeroOrderHoverThrustEkf) (dt : ℚ)
    (hdt : 0 < dt) (hQ : 0 ≤ e.Q) :
    (predict e dt).hover_thr = e.hover_thr ∧
    (predict e dt).P = e.P + e.Q * dt ∧
    e.P ≤ (predict e dt).P ∧
    (predict e dt).Q = e.Q ∧
    (predict e dt).R = e.R ∧
    (predict e dt).gate_size = e.gate_size ∧
    (predict e dt).dt = e.dt := by
  refine ⟨rfl, rfl, ?_, rfl, rfl, rfl, rfl⟩
  have h : 0 ≤ e.Q * dt := mul_nonneg hQ hdt.le
  simp only [predict]
  linarith

/-- Witness for C1 at the default state and dt = 0.02. -/
theorem predict_only_grows_variance_witness :
    (0 : ℚ) < 0.02 ∧ 0 ≤ init.Q ∧
    (predict init 0.02).P = init.P + init.Q * 0.02 ∧
    (predict init 0.02).hover_thr = init.hover_thr :=
  ⟨by norm_num, by norm_num [init],
    (predict_only_grows_variance init 0.02 (by norm_num) (by norm_num [init])).2.1,
    (predict_only_grows_variance init 0.02 (by norm_num) (by norm_num [init])).1⟩

/-- Claim C2: the predicted vertical acceleration is
ŷ = g·thrust/hover_thrust - g and the sensitivity is
H = -g·thrust/hover_thrust²; for thrust = 0.5, hover_thrust = 0.5 and
g = 9.80665, ŷ = 0 and H = -2·g exactly. -/
theorem measurement_model_values (e : ZeroOrderHoverThrustEkf) (thrust : ℚ)
    (h : e.hover_thr = 0.5) :
    computePredictedAccZ e thrust
      = CONSTANTS_ONE_G * thrust / e.hover_thr - CONSTANTS_ONE_G ∧
    computeH e thrust
      = -CONSTANTS_ONE_G * thrust / (e.hover_thr * e.hover_thr) ∧
    CONSTANTS_ONE_G = 9.80665 ∧
    computePredictedAccZ e 0.5 = 0 ∧
    computeH e 0.5 = -(2 * CONSTANTS_ONE_G) := by
  refine ⟨rfl, rfl, rfl, ?_, ?_⟩ <;>
    simp only [computePredictedAccZ, computeH, h, CONSTANTS_ONE_G] <;> norm_num

/-- Witness for C2 at the default state, whose hover_thrust is 0.5. -/
theorem measurement_model_values_witness :
    init.hover_thr = 0.5 ∧ computePredictedAccZ init 0.5 = 0 ∧
    computeH init 0.5 = -(2 * CONSTANTS_ONE_G) :=
  ⟨by norm_num [init], (measurement_model_values init 1 (by norm_num [init])).2.2.2.1,
    (measurement_model_values init 1 (by norm_num [init])).2.2.2.2⟩

/-- Claim C6: the innovation variance is H²·P + R clamped away from zero
by a positive floor, so the divisor in the Kalman gain (and test ratio) is
always strictly positive. -/
theorem innov_var_positive_divisor (e : ZeroOrderHoverThrustEkf) (H : ℚ) :
    computeInnovVar e H = max (H * H * e.P + e.R) innovVarFloor ∧
    0 < computeInnovVar e H ∧
    computeKalmanGain e H ( computeInnovVar e H)
      = e.P * H / computeInnovVar e H := by
  refine ⟨rfl, ?_, rfl⟩
  have h : (0 : ℚ) < innovVarFloor := by norm_num [innovVarFloor]
  exact lt_of_lt_of_le h (le_max_right _ _)

/-- Claim C3: the gate boundary is inclusive: a measurement passes the
gate exactly when the test ratio is at most 1; an innovation exactly equal
to gate_size · sqrt(innov_var) (written gate_size · s with s² = innov_var,
s > 0) yields test ratio 1 and passes, while any strictly larger
innovation yields a ratio above 1 and is rejected. -/
theorem gate_boundary_inclusive (e : ZeroOrderHoverThrustEkf) (s innov' : ℚ)
    (hgate : 0 < e.gate_size) (hs : 0 < s)
    (hlarger : e.gate_size * s < innov') :
    (∀ r : ℚ, isTestRatioPassing e r = true ↔ r ≤ 1) ∧
    computeInnovTestRatio e (e.gate_size * s) (s * s) = 1 ∧
    isTestRatioPassing e ( computeInnovTestRatio e (e.gate_size * s) (s * s)) = true ∧
    1 < computeInnovTestRatio e innov' (s * s) ∧
    isTestRatioPassing e ( computeInnovTestRatio e innov' (s * s)) = false := by
  have hdenom : 0 < e.gate_size * e.gate_size * (s * s) := by positivity
  have hb : computeInnovTestRatio e (e.gate_size * s) (s * s) = 1 := by
    rw [computeInnovTestRatio, div_eq_one_iff_eq hdenom.ne.symm]
    ring
  have hgs : 0 < e.gate_size * s := mul_pos hgate hs
  have hsq : e.gate_size * e.gate_size * (s * s) < innov' * innov' := by
    nlinarith
  have hr : 1 < computeInnovTestRatio e innov' (s * s) := by
    rw [computeInnovTestRatio]
    exact (one_lt_div hdenom).mpr hsq
  refine ⟨fun r => by simp [isTestRatioPassing], hb, ?_, hr, ?_⟩
  · rw [hb]
    simp [isTestRatioPassing]
  · simp [isTestRatioPassing, not_le]
    exact hr

/-- Witness for C3 at the default gate size 3, with s = 1, boundary
innovation 3 and larger innovation 4. -/
theorem gate_boundary_inclusive_witness :
    computeInnovTestRatio init (init.gate_size * 1) (1 * 1) = 1 ∧
    isTestRatioPassing init ( computeInnovTestRatio init (init.gate_size * 1) (1 * 1)) = true ∧
    isTestRatioPassing init ( computeInnovTestRatio init 4 (1 * 1)) = false :=
  ⟨(gate_boundary_inclusive init 1 4 (by norm_num [init]) (by norm_num)
      (by norm_num [init])).2.1,
    (gate_boundary_inclusive init 1 4 (by norm_num [init]) (by norm_num)
      (by norm_num [init])).2.2.1,
    (gate_boundary_inclusive init 1 4 (by norm_num [init]) (by norm_num)
      (by norm_num [init])).2.2.2.2⟩

/-- Claim C4: when the innovation test ratio fails the gate, `fuseAccZ`
leaves hover_thrust and the state variance (and every configuration field)
exactly unchanged, while the measurement-noise variance R is still updated
from the full, ungated innovation. -/
theorem fuse_reject_frame (e : ZeroOrderHoverThrustEkf) (acc_z thrust : ℚ)
    (hrej : isTestRatioPassing e
      ( computeInnovTestRatio e ( computeInnov e acc_z thrust)
        ( computeInnovVar e ( computeH e thrust))) = false) :
    (fuseAccZ e acc_z thrust).1.hover_thr = e.hover_thr ∧
    (fuseAccZ e acc_z thrust).1.P = e.P ∧
    (fuseAccZ e acc_z thrust).1.Q = e.Q ∧
    (fuseAccZ e acc_z thrust).1.gate_size = e.gate_size ∧
    (fuseAccZ e acc_z thrust).1.dt = e.dt ∧
    (fuseAccZ e acc_z thrust).1.R
      = (updateMeasurementNoise e ( computeInnov e acc_z thrust)
          ( computeH e thrust)).R := by
  simp [fuseAccZ, hrej, updateMeasurementNoise]

/-- Witness for C4: at the default state, acc_z = 100 at thrust = 0.5 is
far outside the gate and is rejected. -/
theorem fuse_reject_frame_witness :
    isTestRatioPassing init
      ( computeInnovTestRatio init ( computeInnov init 100 0.5)
        ( computeInnovVar init ( computeH init 0.5))) = false ∧
    (fuseAccZ init 100 0.5).1.hover_thr = init.hover_thr ∧
    (fuseAccZ init 100 0.5).1.P = init.P := by
  have hrej : isTestRatioPassing init
      ( computeInnovTestRatio init ( computeInnov init 100 0.5)
        ( computeInnovVar init ( computeH init 0.5))) = false := by
    norm_num [isTestRatioPassing, computeInnovTestRatio, computeInnov, computeInnovVar,
      computeH, computePredictedAccZ, init, innovVarFloor, CONSTANTS_ONE_G, max_def]
  exact ⟨hrej, (fuse_reject_frame init 100 0.5 hrej).1,
    (fuse_reject_frame init 100 0.5 hrej).2.1⟩

/-- Helper: `fuseAccZ` never changes the process-noise field Q. -/
theorem fuse_preserves_Q (e : ZeroOrderHoverThrustEkf) (acc_z thrust : ℚ) :
    (fuseAccZ e acc_z thrust).1.Q = e.Q := by
  cases hb : isTestRatioPassing e
      ( computeInnovTestRatio e ( computeInnov e acc_z thrust)
        ( computeInnovVar e ( computeH e thrust))) <;>
    simp [fuseAccZ, hb, updateMeasurementNoise, updateStateCovariance, updateState]

/-- Helper: `fuseAccZ` keeps the state variance nonnegative: the accepted
branch floors it at zero and the rejected branch leaves it unchanged. -/
theorem fuse_preserves_P_nonneg (e : ZeroOrderHoverThrustEkf) (acc_z thrust : ℚ)
    (hP : 0 ≤ e.P) : 0 ≤ (fuseAccZ e acc_z thrust).1.P := by
  cases hb : isTestRatioPassing e
      ( computeInnovTestRatio e ( computeInnov e acc_z thrust)
        ( computeInnovVar e ( computeH e thrust)))
  · simpa [fuseAccZ, hb, updateMeasurementNoise] using hP
  · simp only [fuseAccZ, hb, if_true, updateState, updateStateCovariance,
      updateMeasurementNoise]
    exact le_max_left 0 _

/-- Helper: along any valid call sequence from a state with nonnegative
P and Q, the state variance stays nonnegative. -/
theorem runCalls_P_nonneg (cs : List EkfCall) :
    ∀ e : ZeroOrderHoverThrustEkf, 0 ≤ e.P → 0 ≤ e.Q →
      (∀ c ∈ cs, EkfCall.valid c) → 0 ≤ (runCalls e cs).P := by
  induction cs with
  | nil => intro e hP _ _; simpa [runCalls] using hP
  | cons c rest ih =>
    intro e hP hQ hv
    have hrest : ∀ c ∈ rest, EkfCall.valid c :=
      fun c hc => hv c (List.mem_cons_of_mem _ hc)
    cases c with
    | predictCall dt =>
      have hdt : 0 < dt := hv _ (List.mem_cons_self _ _)
      have h1 : 0 ≤ (predict e dt).P := by
        simp only [predict]
        exact add_nonneg hP (mul_nonneg hQ hdt.le)
      simp only [runCalls]
      exact ih _ h1 hQ hrest
    | fuseCall a t =>
      have h1 := fuse_preserves_P_nonneg e a t hP
      have h2 : 0 ≤ (fuseAccZ e a t).1.Q := by
        rw [fuse_preserves_Q]; exact hQ
      simp only [runCalls]
      exact ih _ h1 h2 hrest

/-- Claim C5: starting from the default state (P = 0.01), after any
sequence of `predict` (dt > 0, with the default Q ≥ 0) and `fuseAccZ`
calls, the state variance is never negative. -/
theorem state_variance_never_negative (cs : List EkfCall)
    (hv : ∀ c ∈ cs, EkfCall.valid c) :
    init.P = 0.01 ∧ 0 ≤ (runCalls init cs).P :=
  ⟨by norm_num [init],
    runCalls_P_nonneg cs init (by norm_num [init]) (by norm_num [init]) hv⟩

/-- Witness for C5 on a concrete two-call sequence. -/
theorem state_variance_never_negative_witness :
    0 ≤ (runCalls init [EkfCall.predictCall 0.02, EkfCall.fuseCall 0 0.5]).P :=
  (state_variance_never_negative [EkfCall.predictCall 0.02, EkfCall.fuseCall 0 0.5]
    (by intro c hc; fin_cases hc <;> norm_num [EkfCall.valid])).2

/-- Helper: the predicted acceleration reads only the hover-thrust field. -/
theorem computePredictedAccZ_congr (e1 e2 : ZeroOrderHoverThrustEkf) (thrust : ℚ)
    (h : e1.hover_thr = e2.hover_thr) :
    computePredictedAccZ e1 thrust = computePredictedAccZ e2 thrust := by
  simp [computePredictedAccZ, h]

/-- Helper: a zero-innovation fuse call is accepted with innovation 0 and
test ratio 0, keeps hover_thr, and moves the state variance within
[0, P]. -/
theorem fuse_zero_innov_step (e : ZeroOrderHoverThrustEkf) (acc_z thrust : ℚ)
    (hz : acc_z = computePredictedAccZ e thrust) (hP : 0 ≤ e.P) :
    (fuseAccZ e acc_z thrust).2.innov = 0 ∧
     Status.innov_test_ratio (fuseAccZ e acc_z thrust).2 = 0 ∧
    isTestRatioPassing e ( Status.innov_test_ratio (fuseAccZ e acc_z thrust).2) = true ∧
    (fuseAccZ e acc_z thrust).1.hover_thr = e.hover_thr ∧
    0 ≤ (fuseAccZ e acc_z thrust).1.P ∧
    (fuseAccZ e acc_z thrust).1.P ≤ e.P := by
  have hinnov : computeInnov e acc_z thrust = 0 := by
    simp [computeInnov, hz]
  have hiv : 0 < computeInnovVar e ( computeH e thrust) := by
    have h0 : (0 : ℚ) < innovVarFloor := by norm_num [innovVarFloor]
    exact lt_of_lt_of_le h0 (le_max_right _ _)
  have hKH : 0 ≤ computeKalmanGain e ( computeH e thrust)
      ( computeInnovVar e ( computeH e thrust)) * computeH e thrust := by
    have heq : computeKalmanGain e ( computeH e thrust)
        ( computeInnovVar e ( computeH e thrust)) * computeH e thrust
        = e.P * ( computeH e thrust * computeH e thrust)
          / computeInnovVar e ( computeH e thrust) := by
      rw [computeKalmanGain]; ring
    rw [heq]
    exact div_nonneg (mul_nonneg hP (mul_self_nonneg _)) hiv.le
  have hPfst : (fuseAccZ e acc_z thrust).1.P
      = max 0 ((1 - computeKalmanGain e ( computeH e thrust)
          ( computeInnovVar e ( computeH e thrust)) * computeH e thrust) * e.P) := by
    simp [fuseAccZ, hinnov, computeInnovTestRatio, isTestRatioPassing,
      updateState, updateStateCovariance, updateMeasurementNoise]
  refine ⟨?_, ?_, ?_, ?_, ?_, ?_⟩
  · simp [fuseAccZ, hinnov, computeInnovTestRatio, isTestRatioPassing,
      updateState, updateStateCovariance, updateMeasurementNoise, packStatus]
  · simp [fuseAccZ, hinnov, computeInnovTestRatio, isTestRatioPassing,
      updateState, updateStateCovariance, updateMeasurementNoise, packStatus]
  · simp [fuseAccZ, hinnov, computeInnovTestRatio, isTestRatioPassing,
      updateState, updateStateCovariance, updateMeasurementNoise, packStatus]
  · simp [fuseAccZ, hinnov, computeInnovTestRatio, isTestRatioPassing,
      updateState, updateStateCovariance, updateMeasurementNoise, packStatus]
  · rw [hPfst]
    exact le_max_left 0 _
  · rw [hPfst]
    refine max_le hP ?_
    nlinarith [mul_nonneg hKH hP]

/-- Helper: invariant of repeated zero-innovation fusion: hover_thr is
fixed and P stays in [0, previous P]. -/
theorem iterateFuse_zero_innov_invariant (acc_z thrust : ℚ)
    (e : ZeroOrderHoverThrustEkf)
    (hz : acc_z = computePredictedAccZ e thrust) (hP : 0 ≤ e.P) :
    ∀ n : ℕ, (iterateFuse acc_z thrust n e).hover_thr = e.hover_thr ∧
      0 ≤ (iterateFuse acc_z thrust n e).P ∧
      (iterateFuse acc_z thrust (n + 1) e).P ≤ (iterateFuse acc_z thrust n e).P := by
  intro n
  induction n with
  | zero =>
    have h := fuse_zero_innov_step e acc_z thrust hz hP
    exact ⟨rfl, hP, h.2.2.2.2.2⟩
  | succ n ih =>
    obtain ⟨hhov, hPn, _⟩ := ih
    have hz' : acc_z = computePredictedAccZ (iterateFuse acc_z thrust n e) thrust :=
      hz.trans (computePredictedAccZ_congr _ _ thrust hhov).symm
    have hstep := fuse_zero_innov_step (iterateFuse acc_z thrust n e) acc_z thrust hz' hPn
    have hiter1 : iterateFuse acc_z thrust (n + 1) e
        = (fuseAccZ (iterateFuse acc_z thrust n e) acc_z thrust).1 := rfl
    have hhov1 : (iterateFuse acc_z thrust (n + 1) e).hover_thr = e.hover_thr := by
      rw [hiter1, hstep.2.2.2.1, hhov]
    have hP1 : 0 ≤ (iterateFuse acc_z thrust (n + 1) e).P := by
      rw [hiter1]
      exact hstep.2.2.2.2.1
    have hz2 : acc_z = computePredictedAccZ (iterateFuse acc_z thrust (n + 1) e) thrust :=
      hz.trans (computePredictedAccZ_congr _ _ thrust hhov1).symm
    have hstep2 := fuse_zero_innov_step (iterateFuse acc_z thrust (n + 1) e)
      acc_z thrust hz2 hP1
    refine ⟨hhov1, hP1, ?_⟩
    have hiter2 : iterateFuse acc_z thrust (n + 2) e
        = (fuseAccZ (iterateFuse acc_z thrust (n + 1) e) acc_z thrust).1 := rfl
    rw [hiter2]
    exact hstep2.2.2.2.2.2

/-- Claim C7: when acc_z equals the model prediction, `fuseAccZ` reports
innovation 0 and test ratio 0, accepts the measurement and leaves
hover_thr unchanged; iterating such calls keeps hover_thr fixed while the
state variance decreases monotonically and never becomes negative. -/
theorem zero_innov_fuse_iteration (e : ZeroOrderHoverThrustEkf)
    (acc_z thrust : ℚ) (n : ℕ)
    (hz : acc_z = computePredictedAccZ e thrust) (hP : 0 ≤ e.P) :
    (fuseAccZ e acc_z thrust).2.innov = 0 ∧
     Status.innov_test_ratio (fuseAccZ e acc_z thrust).2 = 0 ∧
    isTestRatioPassing e ( Status.innov_test_ratio (fuseAccZ e acc_z thrust).2) = true ∧
    (fuseAccZ e acc_z thrust).1.hover_thr = e.hover_thr ∧
    (iterateFuse acc_z thrust n e).hover_thr = e.hover_thr ∧
    0 ≤ (iterateFuse acc_z thrust n e).P ∧
    (iterateFuse acc_z thrust (n + 1) e).P ≤ (iterateFuse acc_z thrust n e).P := by
  have hstep := fuse_zero_innov_step e acc_z thrust hz hP
  have hiter := iterateFuse_zero_innov_invariant acc_z thrust e hz hP n
  exact ⟨hstep.1, hstep.2.1, hstep.2.2.1, hstep.2.2.2.1, hiter.1, hiter.2.1, hiter.2.2⟩

/-- Witness for C7 at the default state with thrust 0.5, whose predicted
vertical acceleration is exactly 0. -/
theorem zero_innov_fuse_iteration_witness :
    (fuseAccZ init 0 0.5).2.innov = 0 ∧
    (fuseAccZ init 0 0.5).1.hover_thr = init.hover_thr ∧
    (iterateFuse 0 0.5 2 init).P ≤ (iterateFuse 0 0.5 1 init).P := by
  have hz : (0 : ℚ) = computePredictedAccZ init 0.5 := by
    norm_num [computePredictedAccZ, init, CONSTANTS_ONE_G]
  have h := zero_innov_fuse_iteration init 0 0.5 1 hz (by norm_num [init])
  exact ⟨h.1, h.2.2.2.1, h.2.2.2.2.2.2⟩

end HoverThrustEkf
